import Mathlib

/-!
Shallow embedding of the C boundary layer of DynRS (src/c/util.rs and
src/c/net.rs), together with a spec-level model of the external HTTP client
collaborator (crate::core::net), and theorems about the marshaling and
entry-point behavior.

Modelling conventions:
* A foreign C string pointer is `CStr`: a null pointer, a non-null pointer to
  a NUL-terminated byte sequence that is valid UTF-8 and decodes to `s`
  (`CStr.valid s`), or a non-null pointer to byte content that is not valid
  UTF-8 (`CStr.invalid`).
* A foreign byte-buffer pointer is `Option (List Nat)`: `none` is a null
  pointer, `some bs` is a pointer to an allocation holding bytes `bs`.
* A foreign pointer array is `Option (List CStr)`: `none` is a null pointer.
  Callers guarantee the list holds at least as many elements as the length
  argument of the call (indexing past the backing allocation is a foreign
  caller obligation, outside the modelled behavior).
* `Rust HashMap<String,String>` is `HMap`: a list of entries where insertion
  replaces an existing entry with the same key; membership statements treat
  it as the set of its entries.
* Entry points return `FfiOutcome`: a normal return, undefined behavior
  (dereference of a null pointer, or a `slice::from_raw_parts` call whose
  safety contract is violated), or a Rust panic escaping the `extern "C"`
  function (`.unwrap()` / `.expect(..)` on a failed value), which aborts.
* The model fixes a 64-bit platform: `isize::MAX = 2^63 - 1`.
-/

namespace DynRS

/-- `isize::MAX` on the 64-bit platform the model fixes. -/
def ISIZE_MAX : Nat := 2 ^ 63 - 1

/-- A foreign C string pointer (`*const c_char`). -/
inductive CStr where
  | nullp : CStr
  | valid : String → CStr
  | invalid : CStr
deriving DecidableEq

/-- Number of bytes of the UTF-8 encoding of one character. -/
def utf8CharLen (c : Char) : Nat :=
  if c.toNat < 0x80 then 1
  else if c.toNat < 0x800 then 2
  else if c.toNat < 0x10000 then 3
  else 4

/-- Byte length of the UTF-8 encoding of a string (what `libc::strlen` sees
for a NUL-free string marshaled as a C string). -/
def byteLen (s : String) : Nat :=
  s.data.foldl (fun n c => n + utf8CharLen c) 0

/-- src/c/util.rs `cstr_to_rust`: null check, then `strlen` compared against
`isize::MAX`, then `CStr::from_ptr(..).to_str().ok()` (fails on invalid
UTF-8). -/
def cstr_to_rust : CStr → Option String
  | CStr.nullp => none
  | CStr.invalid => none
  | CStr.valid s => if byteLen s ≤ ISIZE_MAX then some s else none

/-- src/c/util.rs `rust_to_cstr`: `CString::new` fails exactly when the
string contains an interior NUL byte (the character U+0000), in which case
the function returns a null pointer; otherwise it returns a fresh non-null
NUL-terminated copy of the string's bytes. -/
def rust_to_cstr (s : String) : CStr :=
  if (Char.ofNat 0) ∈ s.data then CStr.nullp else CStr.valid s

/-- src/c/util.rs `cbytes_to_rust`: null check, then the length is compared
against `isize::MAX` before the slice is formed; `bs` is the content of the
backing allocation. -/
def cbytes_to_rust (data : Option (List Nat)) (len : Nat) : Option (List Nat) :=
  match data with
  | none => none
  | some bs => if len ≤ ISIZE_MAX then some (bs.take len) else none

/-- Rust `HashMap<String, String>` modelled as its list of entries. -/
abbrev HMap := List (String × String)

/-- `HashMap::insert`: the new entry replaces any existing entry with the
same key. -/
def hmInsert (m : HMap) (k v : String) : HMap :=
  (k, v) :: m.filter (fun p => decide (p.1 ≠ k))

/-- Collecting a list of pairs into a `HashMap` (later entries win). -/
def mapFromPairs (l : List (String × String)) : HMap :=
  l.foldl (fun acc p => hmInsert acc p.1 p.2) []

/-- One iteration of the loop body of src/c/util.rs
`rust_map_from_c_arrays`: `if let (Some(key), Some(value)) =
(cstr_to_rust(keys_slice[i]), cstr_to_rust(values_slice[i]))`. -/
def decodePair (p : CStr × CStr) : Option (String × String) :=
  match cstr_to_rust p.1, cstr_to_rust p.2 with
  | some k, some v => some (k, v)
  | _, _ => none

/-- The `for i in 0..len` loop of src/c/util.rs `rust_map_from_c_arrays`,
walking both arrays in step and inserting each decodable pair. -/
def decodeHeaderLoop : Nat → List CStr → List CStr → HMap → HMap
  | 0, _, _, m => m
  | Nat.succ n, k :: ks, v :: vs, m =>
      decodeHeaderLoop n ks vs
        (match decodePair (k, v) with
         | some p => hmInsert m p.1 p.2
         | none => m)
  | Nat.succ _, [], _, m => m
  | Nat.succ _, _ :: _, [], m => m

/-- src/c/util.rs `rust_map_from_c_arrays`: a null `keys` or `values` array
yields `None` before any slice is formed; otherwise the loop builds the map,
dropping undecodable entries. -/
def rust_map_from_c_arrays (keys values : Option (List CStr)) (len : Nat) :
    Option HMap :=
  match keys, values with
  | some ks, some vs => some (decodeHeaderLoop len ks vs [])
  | _, _ => none

/-- src/c/util.rs `rust_map_to_c_arrays`. The three booleans say whether the
corresponding out-pointer is null. The result describes the writes performed:
`none` means nothing was written at all; `some (n, arrs)` means `n` was
written to `*count_out`, and `arrs = some (ks, vs)` means the two freshly
allocated arrays `ks`, `vs` were written to `*keys_out` / `*values_out`
(`arrs = none`: the early return for an empty map wrote no arrays and
allocated nothing). Each element is produced by `rust_to_cstr`, which yields
a null pointer for a string with an interior NUL. -/
def rust_map_to_c_arrays (m : HMap)
    (keysOutNull valuesOutNull countOutNull : Bool) :
    Option (Nat × Option (List CStr × List CStr)) :=
  if keysOutNull || valuesOutNull || countOutNull then none
  else if m.length = 0 then some (m.length, none)
  else some (m.length,
    some (m.map (fun p => rust_to_cstr p.1), m.map (fun p => rust_to_cstr p.2)))

/-- Modelled from the spec: the response type of the external HTTP client
collaborator (`crate::core::net::HttpResponse`, not part of the marshaling
layer). Per the spec it exposes a numeric status, an ordered header multimap,
and an optional body. A header value is `some s` when it is representable as
text (`HeaderValue::to_str` succeeds) and `none` otherwise. -/
structure HttpResponse where
  status : Nat
  headers : List (String × Option String)
  body : Option String
deriving DecidableEq

/-- One decoded multipart part of an upload request:
`(name, data, mime, filename)`. -/
structure UploadPart where
  name : String
  data : List Nat
  mime : Option String
  filename : Option String
deriving DecidableEq

/-- Modelled from the spec: the external HTTP client collaborator
(`crate::core::net::HttpClient`, not part of the marshaling layer). Per the
spec it exposes `get/post/download/upload` operations that accept a URL, a
header mapping, an optional body (or parts, or an output path), and yield a
structured response or a failure. -/
structure HttpClient where
  get : String → Option HMap → Option String → Except Unit HttpResponse
  post : String → Option HMap → Option String → Option HMap →
    Except Unit HttpResponse
  download : String → Option HMap → String → Except Unit HttpResponse
  upload : String → Option HMap → List UploadPart → Except Unit HttpResponse

/-- Outcome of one call to a boundary entry point: a normal return value,
undefined behavior (a dereference of a null pointer or a violated
`slice::from_raw_parts` safety contract), or a Rust panic escaping the
`extern "C"` function and aborting the process. -/
inductive FfiOutcome (α : Type) where
  | ok : α → FfiOutcome α
  | ub : FfiOutcome α
  | aborted : FfiOutcome α
deriving DecidableEq

/-- `match result { Ok(resp) => box_into_raw_new(resp), Err(_) =>
std::ptr::null_mut() }`: a successful response is boxed into a fresh
non-null handle (`some resp`), a failure becomes the null handle (`none`). -/
def wrapResult (r : Except Unit HttpResponse) : FfiOutcome (Option HttpResponse) :=
  match r with
  | Except.ok resp => FfiOutcome.ok (some resp)
  | Except.error _ => FfiOutcome.ok none

/-- src/c/net.rs `ngenrs_http_client_init`, parametrized by the behavior
`clientNew` of the external `HttpClient::new`. A non-null path is decoded
with `cstr_to_rust(..).unwrap()` (a panic when decoding fails), and the
constructed client goes through
`HttpClient::new(..).expect("Failed to create HTTP client")`
(a panic when construction fails) before `box_into_raw_new` produces a
non-null handle. -/
def ngenrs_http_client_init
    (clientNew : Option String → Except Unit HttpClient) (ca_cert_path : CStr) :
    FfiOutcome (Option HttpClient) :=
  match ca_cert_path with
  | CStr.nullp =>
      match clientNew none with
      | Except.ok c => FfiOutcome.ok (some c)
      | Except.error _ => FfiOutcome.aborted
  | p =>
      match cstr_to_rust p with
      | none => FfiOutcome.aborted
      | some s =>
          match clientNew (some s) with
          | Except.ok c => FfiOutcome.ok (some c)
          | Except.error _ => FfiOutcome.aborted

/-- src/c/net.rs `ngenrs_http_get`. The client pointer is dereferenced with
`unsafe { &*(client as *const HttpClient) }` without a null check (undefined
behavior on a null handle); the url decodes with `unwrap_or_default()`; a
null body pointer becomes `None`, a non-null one decodes with
`unwrap_or_default()` inside `Some`. -/
def ngenrs_http_get (client : Option HttpClient) (url : CStr)
    (header_keys header_values : Option (List CStr)) (headers_len : Nat)
    (body : CStr) : FfiOutcome (Option HttpResponse) :=
  match client with
  | none => FfiOutcome.ub
  | some c =>
      let u := (cstr_to_rust url).getD ""
      let hs := rust_map_from_c_arrays header_keys header_values headers_len
      let b := match body with
        | CStr.nullp => none
        | bp => some ((cstr_to_rust bp).getD "")
      wrapResult (c.get u hs b)

/-- src/c/net.rs `ngenrs_http_post`: like `ngenrs_http_get` with an extra
pair of parallel arrays decoded to an optional JSON mapping. -/
def ngenrs_http_post (client : Option HttpClient) (url : CStr)
    (header_keys header_values : Option (List CStr)) (headers_len : Nat)
    (body : CStr)
    (json_keys json_values : Option (List CStr)) (json_len : Nat) :
    FfiOutcome (Option HttpResponse) :=
  match client with
  | none => FfiOutcome.ub
  | some c =>
      let u := (cstr_to_rust url).getD ""
      let hs := rust_map_from_c_arrays header_keys header_values headers_len
      let b := match body with
        | CStr.nullp => none
        | bp => some ((cstr_to_rust bp).getD "")
      let jm := rust_map_from_c_arrays json_keys json_values json_len
      wrapResult (c.post u hs b jm)

/-- src/c/net.rs `ngenrs_http_download`: the output path decodes with
`Path::new(cstr_to_rust(output_path).unwrap_or_default())`. -/
def ngenrs_http_download (client : Option HttpClient) (url : CStr)
    (header_keys header_values : Option (List CStr)) (headers_len : Nat)
    (output_path : CStr) : FfiOutcome (Option HttpResponse) :=
  match client with
  | none => FfiOutcome.ub
  | some c =>
      let u := (cstr_to_rust url).getD ""
      let hs := rust_map_from_c_arrays header_keys header_values headers_len
      let p := (cstr_to_rust output_path).getD ""
      wrapResult (c.download u hs p)

/-- The body of one iteration of the part loop in src/c/net.rs
`ngenrs_http_upload`: the name decodes with `unwrap_or_default()`; the
payload is copied with `slice::from_raw_parts(datas[i], data_lens[i])
.to_vec()` with no validation at all, so the copy is undefined behavior when
the data pointer is null, when the length exceeds `isize::MAX`, or when the
length exceeds the backing allocation; null mime/filename pointers become
`None`, non-null ones decode with `unwrap_or_default()` inside `Some`. -/
def decodeUploadPart (name : CStr) (data : Option (List Nat)) (dataLen : Nat)
    (mime filename : CStr) : FfiOutcome UploadPart :=
  match data with
  | none => FfiOutcome.ub
  | some bs =>
      if dataLen ≤ ISIZE_MAX then
        if dataLen ≤ bs.length then
          FfiOutcome.ok
            { name := (cstr_to_rust name).getD ""
              data := bs.take dataLen
              mime := match mime with
                | CStr.nullp => none
                | mp => some ((cstr_to_rust mp).getD "")
              filename := match filename with
                | CStr.nullp => none
                | fp => some ((cstr_to_rust fp).getD "") }
        else FfiOutcome.ub
      else FfiOutcome.ub

/-- The `for i in 0..parts_len` loop of `ngenrs_http_upload` over the zipped
per-part inputs. -/
def decodeUploadParts :
    List (CStr × Option (List Nat) × Nat × CStr × CStr) →
    FfiOutcome (List UploadPart)
  | [] => FfiOutcome.ok []
  | (n, d, l, mi, f) :: rest =>
      match decodeUploadPart n d l mi f with
      | FfiOutcome.ok p =>
          match decodeUploadParts rest with
          | FfiOutcome.ok ps => FfiOutcome.ok (p :: ps)
          | FfiOutcome.ub => FfiOutcome.ub
          | FfiOutcome.aborted => FfiOutcome.aborted
      | FfiOutcome.ub => FfiOutcome.ub
      | FfiOutcome.aborted => FfiOutcome.aborted

/-- The five parallel per-part arrays of `ngenrs_http_upload`, walked
together for `parts_len` steps (callers guarantee each array holds
`parts_len` elements). -/
def zipParts (ns : List CStr) (ds : List (Option (List Nat))) (ls : List Nat)
    (ms fs : List CStr) (n : Nat) :
    List (CStr × Option (List Nat) × Nat × CStr × CStr) :=
  (ns.take n).zip ((ds.take n).zip ((ls.take n).zip ((ms.take n).zip (fs.take n))))

/-- src/c/net.rs `ngenrs_http_upload`: null-unchecked client dereference,
url via `unwrap_or_default()`, headers via `rust_map_from_c_arrays`, then
the part loop, then the external client's `upload`. -/
def ngenrs_http_upload (client : Option HttpClient) (url : CStr)
    (header_keys header_values : Option (List CStr)) (headers_len : Nat)
    (part_names : List CStr) (part_data : List (Option (List Nat)))
    (part_data_lens : List Nat) (part_mimes part_filenames : List CStr)
    (parts_len : Nat) : FfiOutcome (Option HttpResponse) :=
  match client with
  | none => FfiOutcome.ub
  | some c =>
      let u := (cstr_to_rust url).getD ""
      let hs := rust_map_from_c_arrays header_keys header_values headers_len
      match decodeUploadParts
          (zipParts part_names part_data part_data_lens part_mimes
            part_filenames parts_len) with
      | FfiOutcome.ok parts => wrapResult (c.upload u hs parts)
      | FfiOutcome.ub => FfiOutcome.ub
      | FfiOutcome.aborted => FfiOutcome.aborted

/-- src/c/net.rs `ngenrs_http_client_release` /
`ngenrs_free_ptr`: a null pointer is a no-op, otherwise the handle is
reclaimed (the returned state is the released handle slot). -/
def ngenrs_http_client_release (client : Option HttpClient) :
    Option HttpClient :=
  match client with
  | none => none
  | some _ => none

/-- src/c/net.rs `ngenrs_http_parse_rsp_status`: `-1` for a null handle,
otherwise `rsp.status.as_u16() as i32`; the handle is only read through a
shared borrow, so the second component is the (unchanged) handle state after
the call. -/
def ngenrs_http_parse_rsp_status (rsp : Option HttpResponse) :
    Int × Option HttpResponse :=
  match rsp with
  | none => (-1, none)
  | some r => ((r.status : Int), some r)

/-- src/c/net.rs `ngenrs_http_parse_rsp_headers`: an early return for a null
handle (nothing written), otherwise the header multimap is collected into a
`HashMap` (`to_str().unwrap_or("")` for each value, later duplicates
winning) and handed to `rust_map_to_c_arrays`. The first component
describes the writes to the out-pointers, the second the (unchanged) handle
state after the call. -/
def ngenrs_http_parse_rsp_headers (rsp : Option HttpResponse)
    (keysNull valuesNull countNull : Bool) :
    Option (Nat × Option (List CStr × List CStr)) × Option HttpResponse :=
  match rsp with
  | none => (none, none)
  | some r =>
      let headers_map := mapFromPairs (r.headers.map (fun p => (p.1, p.2.getD "")))
      (rust_map_to_c_arrays headers_map keysNull valuesNull countNull, some r)

/-- src/c/net.rs `ngenrs_http_parse_rsp_body`: a null pointer for a null
handle or an absent body, otherwise `rust_to_cstr` of the body text; the
second component is the (unchanged) handle state after the call. -/
def ngenrs_http_parse_rsp_body (rsp : Option HttpResponse) :
    CStr × Option HttpResponse :=
  match rsp with
  | none => (CStr.nullp, none)
  | some r =>
      (match r.body with
       | some b => rust_to_cstr b
       | none => CStr.nullp, some r)

/-- A concrete external-client behavior failing every operation; used to
instantiate universally quantified theorems at a specific client. -/
def errClient : HttpClient where
  get := fun _ _ _ => Except.error ()
  post := fun _ _ _ _ => Except.error ()
  download := fun _ _ _ => Except.error ()
  upload := fun _ _ _ => Except.error ()

/-- A concrete `HttpClient::new` behavior for which construction fails (as
it does for a trust-root path naming a non-existent file). -/
def errNew : Option String → Except Unit HttpClient := fun _ => Except.error ()

/-! ### Helper lemmas about the map model -/

theorem mem_hmInsert (m : HMap) (k v : String) (q : String × String) :
    q ∈ hmInsert m k v ↔ q = (k, v) ∨ (q ∈ m ∧ q.1 ≠ k) := by
  simp [hmInsert, List.mem_filter, List.mem_cons, and_assoc]

theorem mem_foldl_hmInsert (q : String × String) (l : List (String × String)) :
    ∀ m : HMap, (l.map Prod.fst).Nodup → (∀ p ∈ m, p.1 ∉ l.map Prod.fst) →
      (q ∈ l.foldl (fun acc p => hmInsert acc p.1 p.2) m ↔ q ∈ m ∨ q ∈ l) := by
  induction l with
  | nil => intro m _ _; simp
  | cons a l ih =>
      intro m hnd hdisj
      have hk : a.1 ∉ l.map Prod.fst := by
        have := hnd
        simp only [List.map_cons, List.nodup_cons] at this
        exact this.1
      have hnd' : (l.map Prod.fst).Nodup := by
        have := hnd
        simp only [List.map_cons, List.nodup_cons] at this
        exact this.2
      have hdisj' : ∀ p ∈ hmInsert m a.1 a.2, p.1 ∉ l.map Prod.fst := by
        intro p hp
        rcases (mem_hmInsert m a.1 a.2 p).mp hp with h | h
        · rw [h]; exact hk
        · have := hdisj p h.1
          simp only [List.map_cons, List.mem_cons, not_or] at this
          exact this.2
      rw [List.foldl_cons, ih (hmInsert m a.1 a.2) hnd' hdisj']
      rw [mem_hmInsert]
      simp only [List.mem_cons]
      constructor
      · rintro ((h | h) | h)
        · exact Or.inr (Or.inl (h.trans Prod.mk.eta))
        · exact Or.inl h.1
        · exact Or.inr (Or.inr h)
      · rintro (h | h | h)
        · have hne : q.1 ≠ a.1 := by
            have := hdisj q h
            simp only [List.map_cons, List.mem_cons, not_or] at this
            exact this.1
          exact Or.inl (Or.inr ⟨h, hne⟩)
        · exact Or.inl (Or.inl (h.trans Prod.mk.eta.symm))
        · exact Or.inr h

theorem mem_mapFromPairs (l : List (String × String))
    (hnd : (l.map Prod.fst).Nodup) (q : String × String) :
    q ∈ mapFromPairs l ↔ q ∈ l := by
  have := mem_foldl_hmInsert q l [] hnd (by intro p hp; cases hp)
  simpa [mapFromPairs] using this

theorem decodeHeaderLoop_eq :
    ∀ (n : Nat) (ks vs : List CStr) (m : HMap),
      decodeHeaderLoop n ks vs m
        = (((ks.take n).zip (vs.take n)).filterMap decodePair).foldl
            (fun acc p => hmInsert acc p.1 p.2) m := by
  intro n
  induction n with
  | zero => intro ks vs m; simp [decodeHeaderLoop]
  | succ n ih =>
      intro ks vs m
      cases ks with
      | nil => simp [decodeHeaderLoop]
      | cons k ks =>
          cases vs with
          | nil => simp [decodeHeaderLoop]
          | cons v vs =>
              simp only [decodeHeaderLoop, List.take_succ_cons, List.zip_cons_cons,
                List.filterMap_cons]
              cases hd : decodePair (k, v) with
              | none => rw [ih]
              | some p => rw [ih, List.foldl_cons]

theorem decodePair_encoded (k v : String) (hk : byteLen k ≤ ISIZE_MAX)
    (hv : byteLen v ≤ ISIZE_MAX) :
    decodePair (rust_to_cstr k, rust_to_cstr v)
      = if (Char.ofNat 0) ∈ k.data ∨ (Char.ofNat 0) ∈ v.data then none
        else some (k, v) := by
  unfold decodePair rust_to_cstr cstr_to_rust
  by_cases h1 : (Char.ofNat 0) ∈ k.data <;>
    by_cases h2 : (Char.ofNat 0) ∈ v.data <;>
      simp [h1, h2, hk, hv]

theorem filterMap_decodePair_encoded (m : HMap)
    (hb : ∀ p ∈ m, byteLen p.1 ≤ ISIZE_MAX ∧ byteLen p.2 ≤ ISIZE_MAX) :
    m.filterMap (fun p => decodePair (rust_to_cstr p.1, rust_to_cstr p.2))
      = m.filter
          (fun p => decide ((Char.ofNat 0) ∉ p.1.data ∧ (Char.ofNat 0) ∉ p.2.data)) := by
  induction m with
  | nil => rfl
  | cons a l ih =>
      have ha := hb a (List.mem_cons_self a l)
      have hb' : ∀ p ∈ l, byteLen p.1 ≤ ISIZE_MAX ∧ byteLen p.2 ≤ ISIZE_MAX :=
        fun p hp => hb p (List.mem_cons_of_mem a hp)
      rw [List.filterMap_cons, List.filter_cons]
      have he := decodePair_encoded a.1 a.2 ha.1 ha.2
      by_cases h1 : (Char.ofNat 0) ∈ a.1.data ∨ (Char.ofNat 0) ∈ a.2.data
      · rw [if_pos h1] at he
        have hfalse : ¬((Char.ofNat 0) ∉ a.1.data ∧ (Char.ofNat 0) ∉ a.2.data) := by
          tauto
        simp [he, ih hb', hfalse]
      · rw [if_neg h1] at he
        push_neg at h1
        simp [he, ih hb', h1.1, h1.2]

/-! ### Claim theorems -/

/-- C8: `rust_to_cstr` applied to any text containing an embedded NUL
character fails and yields a null pointer; applied to any text without
embedded NULs it yields a non-null C string whose contents equal the source
text. -/
theorem C8_encode_text (s : String) :
    ((Char.ofNat 0) ∈ s.data → rust_to_cstr s = CStr.nullp)
  ∧ ((Char.ofNat 0) ∉ s.data →
      rust_to_cstr s = CStr.valid s ∧ CStr.valid s ≠ CStr.nullp) := by
  constructor
  · intro h; simp [rust_to_cstr, h]
  · intro h
    refine ⟨by simp [rust_to_cstr, h], fun hcon => CStr.noConfusion hcon⟩

/-- C8 witness: a string with an embedded NUL encodes to the null pointer,
and a NUL-free string encodes to a non-null C string with the same
contents. -/
theorem C8_witness :
    rust_to_cstr "a\x00b" = CStr.nullp
  ∧ (rust_to_cstr "ab" = CStr.valid "ab" ∧ CStr.valid "ab" ≠ CStr.nullp) :=
  ⟨(C8_encode_text "a\x00b").1 (by decide), (C8_encode_text "ab").2 (by decide)⟩

/-- C10: `rust_map_to_c_arrays` writes nothing at all when any of its three
out-pointers is null; for the empty map (with non-null out-pointers) it
writes `0` to the count out-parameter, writes no arrays, and allocates
nothing. -/
theorem C10_encode_frame (m : HMap) (kN vN cN : Bool) :
    ((kN = true ∨ vN = true ∨ cN = true) →
        rust_map_to_c_arrays m kN vN cN = none)
  ∧ rust_map_to_c_arrays [] false false false = some (0, none) := by
  constructor
  · intro h
    unfold rust_map_to_c_arrays
    rcases h with h | h | h <;> simp [h]
  · rfl

/-- C10 witness: a non-empty map with a null keys out-pointer writes
nothing; the empty map writes only the zero count. -/
theorem C10_witness :
    rust_map_to_c_arrays [("a", "x")] true false false = none
  ∧ rust_map_to_c_arrays [] false false false = some (0, none) :=
  ⟨(C10_encode_frame [("a", "x")] true false false).1 (Or.inl rfl),
   (C10_encode_frame [] false false false).2⟩

/-- C7: the response accessors are pure readers: on a null handle, `status`
returns the sentinel `-1`, the headers accessor writes nothing, and `body`
returns the null pointer; on a live handle none of them mutates or consumes
the response (the handle state after the call is unchanged), so repeated
calls return the same results. -/
theorem C7_accessors_pure (r : HttpResponse) (kN vN cN : Bool) :
    (ngenrs_http_parse_rsp_status none).1 = -1
  ∧ (ngenrs_http_parse_rsp_headers none kN vN cN).1 = none
  ∧ (ngenrs_http_parse_rsp_body none).1 = CStr.nullp
  ∧ (ngenrs_http_parse_rsp_status (some r)).2 = some r
  ∧ (ngenrs_http_parse_rsp_headers (some r) kN vN cN).2 = some r
  ∧ (ngenrs_http_parse_rsp_body (some r)).2 = some r
  ∧ (ngenrs_http_parse_rsp_status
        ((ngenrs_http_parse_rsp_status (some r)).2)).1
      = (ngenrs_http_parse_rsp_status (some r)).1
  ∧ (ngenrs_http_parse_rsp_headers
        ((ngenrs_http_parse_rsp_headers (some r) kN vN cN).2) kN vN cN).1
      = (ngenrs_http_parse_rsp_headers (some r) kN vN cN).1
  ∧ (ngenrs_http_parse_rsp_body
        ((ngenrs_http_parse_rsp_body (some r)).2)).1
      = (ngenrs_http_parse_rsp_body (some r)).1 :=
  ⟨rfl, rfl, rfl, rfl, rfl, rfl, rfl, rfl, rfl⟩

/-- C5: `rust_map_from_c_arrays` returns `none` ("no mapping") whenever the
keys array or the values array is null, for any length including zero; for
non-null arrays it always returns `some` mapping (never failing the whole
mapping), and — when the successfully decoded entries have distinct keys —
that mapping holds exactly the entries whose key and value both decode,
every undecodable entry being dropped. -/
theorem C5_decode_mapping (len : Nat) :
    (∀ vso, rust_map_from_c_arrays none vso len = none)
  ∧ (∀ kso, rust_map_from_c_arrays kso none len = none)
  ∧ (∀ ks vs, ∃ m,
      rust_map_from_c_arrays (some ks) (some vs) len = some m
      ∧ (((((ks.take len).zip (vs.take len)).filterMap decodePair).map
            Prod.fst).Nodup →
          ∀ q, (q ∈ m ↔ q ∈ ((ks.take len).zip (vs.take len)).filterMap
            decodePair))) := by
  refine ⟨fun vso => by cases vso <;> rfl, fun kso => by cases kso <;> rfl,
    fun ks vs => ?_⟩
  refine ⟨decodeHeaderLoop len ks vs [], rfl, fun hnd q => ?_⟩
  rw [decodeHeaderLoop_eq]
  have h := mem_foldl_hmInsert q
    (((ks.take len).zip (vs.take len)).filterMap decodePair) [] hnd
    (fun p hp => absurd hp (List.not_mem_nil p))
  rw [h]
  simp

/-- C5 witness: null keys give no mapping; among three entries, the ones
whose key is a non-UTF-8 pointer or a null pointer are dropped and the
decodable one is kept. -/
theorem C5_witness :
    rust_map_from_c_arrays none (some []) 0 = none
  ∧ ∃ m, rust_map_from_c_arrays
        (some [CStr.valid "a", CStr.invalid, CStr.nullp])
        (some [CStr.valid "x", CStr.valid "y", CStr.valid "z"]) 3 = some m
      ∧ ∀ q, (q ∈ m ↔ q ∈ ([("a", "x")] : List (String × String))) := by
  refine ⟨(C5_decode_mapping 0).1 (some []), ?_⟩
  obtain ⟨m, hm, hmem⟩ := (C5_decode_mapping 3).2.2
    [CStr.valid "a", CStr.invalid, CStr.nullp]
    [CStr.valid "x", CStr.valid "y", CStr.valid "z"]
  refine ⟨m, hm, fun q => ?_⟩
  have e : ((([CStr.valid "a", CStr.invalid, CStr.nullp].take 3).zip
      ([CStr.valid "x", CStr.valid "y", CStr.valid "z"].take 3)).filterMap
        decodePair) = [("a", "x")] := by decide
  rw [hmem (by decide) q, e]

/-- C4: encoding a native mapping with `rust_map_to_c_arrays` and decoding
the resulting parallel arrays back with `rust_map_from_c_arrays` yields a
mapping set-equal to the original, except that entries whose key or value
contains an embedded NUL (and so was encoded as a null pointer) are
absent. -/
theorem C4_roundtrip (m : HMap)
    (hnd : (m.map Prod.fst).Nodup)
    (hb : ∀ p ∈ m, byteLen p.1 ≤ ISIZE_MAX ∧ byteLen p.2 ≤ ISIZE_MAX) :
    rust_map_to_c_arrays m false false false
      = some (m.length,
          if m.length = 0 then none
          else some (m.map (fun p => rust_to_cstr p.1),
                     m.map (fun p => rust_to_cstr p.2)))
  ∧ ∃ rm, rust_map_from_c_arrays
        (some (m.map (fun p => rust_to_cstr p.1)))
        (some (m.map (fun p => rust_to_cstr p.2))) m.length = some rm
      ∧ ∀ q, (q ∈ rm ↔
          q ∈ m ∧ (Char.ofNat 0) ∉ q.1.data ∧ (Char.ofNat 0) ∉ q.2.data) := by
  constructor
  · unfold rust_map_to_c_arrays
    by_cases h : m.length = 0 <;> simp [h]
  · have key : rust_map_from_c_arrays
        (some (m.map (fun p => rust_to_cstr p.1)))
        (some (m.map (fun p => rust_to_cstr p.2))) m.length
        = some (decodeHeaderLoop m.length (m.map (fun p => rust_to_cstr p.1))
            (m.map (fun p => rust_to_cstr p.2)) []) := rfl
    refine ⟨_, key, fun q => ?_⟩
    rw [decodeHeaderLoop_eq]
    have t1 : ∀ (g : (String × String) → CStr),
        (m.map g).take m.length = m.map g := by
      intro g; rw [← List.length_map m g, List.take_length]
    rw [t1, t1, List.zip_map', List.filterMap_map]
    rw [show (decodePair ∘ fun p : String × String =>
        (rust_to_cstr p.1, rust_to_cstr p.2))
      = fun p => decodePair (rust_to_cstr p.1, rust_to_cstr p.2) from rfl]
    rw [filterMap_decodePair_encoded m hb]
    have hnd' : ((m.filter (fun p =>
        decide ((Char.ofNat 0) ∉ p.1.data ∧ (Char.ofNat 0) ∉ p.2.data))).map
          Prod.fst).Nodup :=
      List.Nodup.sublist (List.Sublist.map Prod.fst (List.filter_sublist m)) hnd
    have h := mem_foldl_hmInsert q
      (m.filter (fun p =>
        decide ((Char.ofNat 0) ∉ p.1.data ∧ (Char.ofNat 0) ∉ p.2.data))) []
      hnd' (fun p hp => absurd hp (List.not_mem_nil p))
    rw [h]
    simp [List.mem_filter]

/-- C4 witness: a two-entry mapping with distinct NUL-free keys and values
round-trips to a set-equal mapping. -/
theorem C4_witness :
    ∃ rm, rust_map_from_c_arrays
        (some (([("a", "x"), ("b", "y")] : HMap).map (fun p => rust_to_cstr p.1)))
        (some (([("a", "x"), ("b", "y")] : HMap).map (fun p => rust_to_cstr p.2)))
        2 = some rm
      ∧ ∀ q, (q ∈ rm ↔
          q ∈ ([("a", "x"), ("b", "y")] : HMap)
            ∧ (Char.ofNat 0) ∉ q.1.data ∧ (Char.ofNat 0) ∉ q.2.data) :=
  (C4_roundtrip [("a", "x"), ("b", "y")] (by decide) (by decide)).2

/-- C1 counterexample: at the concrete input of a null client handle (with a
perfectly good url), `ngenrs_http_get` dereferences the null pointer with no
check — undefined behavior, not the null response handle the claim
requires. -/
theorem C1_counterexample :
    ngenrs_http_get none (CStr.valid "http://a") none none 0 CStr.nullp
      = FfiOutcome.ub
  ∧ (FfiOutcome.ub : FfiOutcome (Option HttpResponse)) ≠ FfiOutcome.ok none :=
  ⟨rfl, fun h => FfiOutcome.noConfusion h⟩

/-- C1 amended: with a null client handle every request entry point is
undefined behavior (the pointer is dereferenced without a check); with a
valid client, a null or non-UTF-8 url decodes to the empty string, and
whenever the external client fails on that empty url the entry point
returns a null response handle. -/
theorem C1_amended (c : HttpClient) (hk hv jk jv : Option (List CStr))
    (n jn : Nat) (op u b : CStr) :
    (ngenrs_http_get none u hk hv n b = FfiOutcome.ub
     ∧ ngenrs_http_post none u hk hv n b jk jv jn = FfiOutcome.ub
     ∧ ngenrs_http_download none u hk hv n op = FfiOutcome.ub
     ∧ ngenrs_http_upload none u hk hv n [] [] [] [] [] 0 = FfiOutcome.ub)
  ∧ (u = CStr.nullp ∨ u = CStr.invalid →
      (c.get "" (rust_map_from_c_arrays hk hv n) none = Except.error () →
        ngenrs_http_get (some c) u hk hv n CStr.nullp = FfiOutcome.ok none)
    ∧ (c.post "" (rust_map_from_c_arrays hk hv n) none
          (rust_map_from_c_arrays jk jv jn) = Except.error () →
        ngenrs_http_post (some c) u hk hv n CStr.nullp jk jv jn
          = FfiOutcome.ok none)
    ∧ (c.download "" (rust_map_from_c_arrays hk hv n)
          ((cstr_to_rust op).getD "") = Except.error () →
        ngenrs_http_download (some c) u hk hv n op = FfiOutcome.ok none)
    ∧ (c.upload "" (rust_map_from_c_arrays hk hv n) [] = Except.error () →
        ngenrs_http_upload (some c) u hk hv n [] [] [] [] [] 0
          = FfiOutcome.ok none)) := by
  refine ⟨⟨rfl, rfl, rfl, rfl⟩, fun hu => ?_⟩
  have hu' : (cstr_to_rust u).getD "" = "" := by
    rcases hu with h | h <;> rw [h] <;> rfl
  refine ⟨fun hg => ?_, fun hp => ?_, fun hd => ?_, fun hup => ?_⟩
  · simp [ngenrs_http_get, hu', hg, wrapResult]
  · simp [ngenrs_http_post, hu', hp, wrapResult]
  · simp [ngenrs_http_download, hu', hd, wrapResult]
  · simp [ngenrs_http_upload, zipParts, decodeUploadParts, hu', hup, wrapResult]

/-- C1 witness: a concrete client that fails on the empty url, called
through the get entry point with a null url, returns the null response
handle. -/
theorem C1_witness :
    ngenrs_http_get (some errClient) CStr.nullp none none 0 CStr.nullp
      = FfiOutcome.ok none :=
  ((C1_amended errClient none none none none 0 0 CStr.nullp CStr.nullp
      CStr.nullp).2 (Or.inl rfl)).1 rfl

/-- C2 counterexample: at a concrete trust-root path for which the external
constructor fails (as for a non-existent file), `ngenrs_http_client_init`
panics through `.expect(..)` — it does not return the null handle the claim
requires. -/
theorem C2_counterexample :
    ngenrs_http_client_init errNew (CStr.valid "/missing.pem")
      = FfiOutcome.aborted
  ∧ (FfiOutcome.aborted : FfiOutcome (Option HttpClient))
      ≠ FfiOutcome.ok none :=
  ⟨rfl, fun h => FfiOutcome.noConfusion h⟩

/-- C2 amended: `ngenrs_http_client_init` never returns a null handle: when
the underlying client cannot be constructed it panics (aborting at the
`extern "C"` boundary), and it also panics when a non-null trust-root path
is not valid UTF-8; a successful construction always yields a non-null
handle. -/
theorem C2_amended (f : Option String → Except Unit HttpClient) (ca : CStr) :
    ngenrs_http_client_init f ca ≠ FfiOutcome.ok none
  ∧ (ca = CStr.nullp → f none = Except.error () →
      ngenrs_http_client_init f ca = FfiOutcome.aborted)
  ∧ (∀ s, ca = CStr.valid s → f (some s) = Except.error () →
      ngenrs_http_client_init f ca = FfiOutcome.aborted)
  ∧ (ca = CStr.invalid → ngenrs_http_client_init f ca = FfiOutcome.aborted) := by
  refine ⟨?_, ?_, ?_, ?_⟩
  · cases ca with
    | nullp => cases hf : f none <;> simp [ngenrs_http_client_init, hf]
    | invalid => simp [ngenrs_http_client_init, cstr_to_rust]
    | valid s =>
        by_cases hb : byteLen s ≤ ISIZE_MAX
        · cases hf : f (some s) <;>
            simp [ngenrs_http_client_init, cstr_to_rust, hb, hf]
        · simp [ngenrs_http_client_init, cstr_to_rust, hb]
  · rintro rfl hf
    simp [ngenrs_http_client_init, hf]
  · rintro s rfl hf
    by_cases hb : byteLen s ≤ ISIZE_MAX <;>
      simp [ngenrs_http_client_init, cstr_to_rust, hb, hf]
  · rintro rfl
    simp [ngenrs_http_client_init, cstr_to_rust]

/-- C2 witness: with a failing constructor and a null trust-root path, init
panics (it does not return null). -/
theorem C2_witness :
    ngenrs_http_client_init errNew CStr.nullp = FfiOutcome.aborted :=
  (C2_amended errNew CStr.nullp).2.1 rfl rfl

/-- C3: at a part whose payload length is `2^63 > isize::MAX`,
`ngenrs_http_upload` hands the length straight to `slice::from_raw_parts`
and copies — undefined behavior, with no validation before the copy — while
the repository's own safe wrapper `cbytes_to_rust` (which upload never
calls) rejects the very same length without dereferencing. -/
theorem C3_unchecked_length :
    ngenrs_http_upload (some errClient) (CStr.valid "http://a") none none 0
      [CStr.valid "f"] [some []] [2 ^ 63] [CStr.nullp] [CStr.nullp] 1
      = FfiOutcome.ub
  ∧ cbytes_to_rust (some []) (2 ^ 63) = none := by
  constructor
  · decide
  · decide

/-- C6: a null foreign pointer in every optional-parameter position decodes
to `none` — never an error — and the call is the very call made with the
field omitted: a null body in get/post passes `none` to the external
client, a null trust-root path passes `none` to the constructor, and null
mime/filename pointers give a part with no mime and no filename. -/
theorem C6_null_optionals (c : HttpClient)
    (f : Option String → Except Unit HttpClient) (u name : CStr)
    (hk hv jk jv : Option (List CStr)) (n jn : Nat)
    (bs : List Nat) (dl : Nat) :
    ngenrs_http_get (some c) u hk hv n CStr.nullp
      = wrapResult (c.get ((cstr_to_rust u).getD "")
          (rust_map_from_c_arrays hk hv n) none)
  ∧ ngenrs_http_post (some c) u hk hv n CStr.nullp jk jv jn
      = wrapResult (c.post ((cstr_to_rust u).getD "")
          (rust_map_from_c_arrays hk hv n) none
          (rust_map_from_c_arrays jk jv jn))
  ∧ (∀ cl, f none = Except.ok cl →
      ngenrs_http_client_init f CStr.nullp = FfiOutcome.ok (some cl))
  ∧ (dl ≤ ISIZE_MAX → dl ≤ bs.length →
      decodeUploadPart name (some bs) dl CStr.nullp CStr.nullp
        = FfiOutcome.ok
            { name := (cstr_to_rust name).getD "", data := bs.take dl,
              mime := none, filename := none }) := by
  refine ⟨rfl, rfl, fun cl hf => ?_, fun h1 h2 => ?_⟩
  · simp [ngenrs_http_client_init, hf]
  · simp [decodeUploadPart, h1, h2]

/-- C6 witness: concrete calls with null body and null mime/filename
pointers produce exactly the omitted-field calls. -/
theorem C6_witness :
    ngenrs_http_get (some errClient) (CStr.valid "http://a") none none 0
        CStr.nullp
      = wrapResult (errClient.get "http://a"
          (rust_map_from_c_arrays none none 0) none)
  ∧ decodeUploadPart (CStr.valid "f") (some [7]) 1 CStr.nullp CStr.nullp
      = FfiOutcome.ok (UploadPart.mk "f" [7] none none) :=
  ⟨(C6_null_optionals errClient errNew (CStr.valid "http://a")
      (CStr.valid "f") none none none none 0 0 [7] 1).1,
   (C6_null_optionals errClient errNew (CStr.valid "http://a")
      (CStr.valid "f") none none none none 0 0 [7] 1).2.2.2
        (by decide) (by decide)⟩

/-- C9: in every request entry point (get, post, download, upload), a
non-null but non-UTF-8 text parameter decodes as the present empty string —
`""` for the url, `some ""` for body, mime and filename, `""` for a part
name — rather than as an absent field or an immediate failure: the call
still reaches the external client, which alone decides the outcome. -/
theorem C9_invalid_text_empty (c : HttpClient)
    (hk hv jk jv : Option (List CStr)) (n jn : Nat) (op : CStr)
    (bs : List Nat) (dl : Nat) :
    ngenrs_http_get (some c) CStr.invalid hk hv n CStr.invalid
      = wrapResult (c.get "" (rust_map_from_c_arrays hk hv n) (some ""))
  ∧ ngenrs_http_post (some c) CStr.invalid hk hv n CStr.invalid jk jv jn
      = wrapResult (c.post "" (rust_map_from_c_arrays hk hv n) (some "")
          (rust_map_from_c_arrays jk jv jn))
  ∧ ngenrs_http_download (some c) CStr.invalid hk hv n op
      = wrapResult (c.download "" (rust_map_from_c_arrays hk hv n)
          ((cstr_to_rust op).getD ""))
  ∧ (dl ≤ ISIZE_MAX → dl ≤ bs.length →
      ngenrs_http_upload (some c) CStr.invalid hk hv n
        [CStr.invalid] [some bs] [dl] [CStr.invalid] [CStr.invalid] 1
        = wrapResult (c.upload "" (rust_map_from_c_arrays hk hv n)
            [{ name := "", data := bs.take dl, mime := some "",
               filename := some "" }])) := by
  refine ⟨rfl, rfl, rfl, fun h1 h2 => ?_⟩
  simp [ngenrs_http_upload, zipParts, decodeUploadParts, decodeUploadPart,
    h1, h2, cstr_to_rust]

/-- C9 witness: concrete get, download and upload calls with non-UTF-8
url, body, output path, part name, mime and filename reach the external
client with present empty strings. -/
theorem C9_witness :
    ngenrs_http_get (some errClient) CStr.invalid none none 0 CStr.invalid
      = wrapResult (errClient.get "" (rust_map_from_c_arrays none none 0)
          (some ""))
  ∧ ngenrs_http_download (some errClient) CStr.invalid none none 0
      CStr.invalid
      = wrapResult (errClient.download ""
          (rust_map_from_c_arrays none none 0) "")
  ∧ ngenrs_http_upload (some errClient) CStr.invalid none none 0
      [CStr.invalid] [some [7]] [1] [CStr.invalid] [CStr.invalid] 1
      = wrapResult (errClient.upload "" (rust_map_from_c_arrays none none 0)
          [UploadPart.mk "" [7] (some "") (some "")]) :=
  ⟨(C9_invalid_text_empty errClient none none none none 0 0 CStr.invalid
      [7] 1).1,
   (C9_invalid_text_empty errClient none none none none 0 0 CStr.invalid
      [7] 1).2.2.1,
   (C9_invalid_text_empty errClient none none none none 0 0 CStr.invalid
      [7] 1).2.2.2 (by decide) (by decide)⟩

end DynRS
